import Mathlib

/-!
Shallow embedding of the ShrikeOS-monitor software watchdog
(`src/watchdog.c`) and verification of its specification claims.

Modelling conventions:
* `uint32_t` values are `Nat` with an explicit `% 2 ^ 32` at the points
  where C overflow can change behaviour (`timeout_ms * 3` in the warning
  threshold, and the `(uint32_t)elapsed` cast passed to the recovery
  callback).  The per-entry and global counters are modelled as
  mathematical `Nat`: the C code never branches on them, it only
  increments and prints them.
* `int64_t` timestamps (`k_uptime_get`) are `Int`.
* Slot arguments are `Int` (the C API takes `int`, including negatives).
* The recovery callback pointer is `Option Nat`: an opaque identifier,
  `none` for the C `NULL` pointer (which selects `wdg_default_recovery`).
  A tick returns the list of recovery invocations it performs, each
  recording which callback was used and with which arguments.
* The checker tick is modelled as one atomic evaluation pass at a given
  clock value `now`; the mutex-release window around the callback is a
  concurrency feature outside this sequential embedding.
-/

namespace Wdg

/-- Thread health states (`enum wdg_thread_state`). -/
inductive WdgThreadState where
  | idle
  | healthy
  | warning
  | unresponsive
  | recovered
deriving DecidableEq, Repr

/-- WDG_MAX_THREADS. -/
def WDG_MAX_THREADS : Nat := 8

/-- One monitored-thread record (`struct wdg_entry`). -/
structure WdgEntry where
  active : Bool
  name : String
  timeout_ms : Nat
  last_heartbeat : Int
  state : WdgThreadState
  recovery_cb : Option Nat
  heartbeat_count : Nat
  timeout_count : Nat
  recovery_count : Nat
deriving DecidableEq, Repr

/-- Aggregate statistics (`struct wdg_stats`). -/
structure WdgStats where
  total_heartbeats : Nat
  total_timeouts : Nat
  total_recoveries : Nat
  checks_performed : Nat
deriving DecidableEq, Repr

/-- The whole watchdog module state: the static table `wdg_table`,
`wdg_count`, `wdg_enabled` and `wdg_stats`. -/
structure WdgRegistry where
  table : List WdgEntry
  count : Nat
  enabled : Bool
  stats : WdgStats
deriving DecidableEq, Repr

/-- A zero-initialised `struct wdg_entry` (static storage / `memset 0`). -/
def wdgInitEntry : WdgEntry :=
  { active := false
    name := ""
    timeout_ms := 0
    last_heartbeat := 0
    state := WdgThreadState.idle
    recovery_cb := none
    heartbeat_count := 0
    timeout_count := 0
    recovery_count := 0 }

/-- The module state at process start: zeroed table of 8 slots,
`wdg_count = 0`, `wdg_enabled = true`, zeroed statistics. -/
def wdgInitRegistry : WdgRegistry :=
  { table := List.replicate WDG_MAX_THREADS wdgInitEntry
    count := 0
    enabled := true
    stats := { total_heartbeats := 0, total_timeouts := 0,
               total_recoveries := 0, checks_performed := 0 } }

/-- One recovery invocation performed by the checker: the callback used
(`none` = the default handler `wdg_default_recovery`), the thread name
argument and the `(uint32_t)elapsed` argument. -/
structure WdgRecoveryEvent where
  cb : Option Nat
  thread_name : String
  elapsed_ms : Nat
deriving DecidableEq, Repr

/-- The entry contents written by `wdg_register` into the allocated slot
(lines 110-120 of the source): `memset` to zero, then the fields set one
by one.  The name is truncated to 23 characters as by `strncpy` into
`char name[24]`; the `uint32_t timeout_ms` argument is reduced mod 2^32;
`now` stands for the `k_uptime_get()` call. -/
def wdgFreshEntry (name : String) (timeout_ms : Nat) (cb : Option Nat)
    (now : Int) : WdgEntry :=
  { active := true
    name := name.take 23
    timeout_ms := timeout_ms % 2 ^ 32
    last_heartbeat := now
    state := WdgThreadState.idle
    recovery_cb := cb
    heartbeat_count := 0
    timeout_count := 0
    recovery_count := 0 }

/-- wdg_register: allocate the next slot and fill it, or fail (`-1`,
here `none`) when the table is full. -/
def wdg_register (name : String) (timeout_ms : Nat) (cb : Option Nat)
    (now : Int) (r : WdgRegistry) : Option Nat × WdgRegistry :=
  if r.count ≥ WDG_MAX_THREADS then
    (none, r)
  else
    (some r.count,
     { r with table := r.table.set r.count (wdgFreshEntry name timeout_ms cb now)
              count := r.count + 1 })

/-- wdg_heartbeat: out-of-range slots are ignored; an active entry gets
`last_heartbeat = now`, `state = HEALTHY`, and both the per-entry and the
global heartbeat counters incremented. -/
def wdg_heartbeat (slot : Int) (now : Int) (r : WdgRegistry) : WdgRegistry :=
  if slot < 0 ∨ (WDG_MAX_THREADS : Int) ≤ slot then r
  else
    match r.table[slot.toNat]? with
    | none => r
    | some e =>
      if e.active then
        { r with
          table := r.table.set slot.toNat
            { e with
              last_heartbeat := now
              state := WdgThreadState.healthy
              heartbeat_count := e.heartbeat_count + 1 }
          stats := { r.stats with
                     total_heartbeats := r.stats.total_heartbeats + 1 } }
      else r

/-- wdg_unregister: out-of-range or inactive slots are ignored; an active
entry only has its `active` flag cleared. -/
def wdg_unregister (slot : Int) (r : WdgRegistry) : WdgRegistry :=
  if slot < 0 ∨ (WDG_MAX_THREADS : Int) ≤ slot then r
  else
    match r.table[slot.toNat]? with
    | none => r
    | some e =>
      if e.active then
        { r with table := r.table.set slot.toNat { e with active := false } }
      else r

/-- wdg_enable: set the global enable flag. -/
def wdg_enable (enable : Bool) (r : WdgRegistry) : WdgRegistry :=
  { r with enabled := enable }

/-- wdg_get_state: `WDG_STATE_IDLE` for out-of-range slots, otherwise the
stored `state` field of the slot (note: the C code does not check
`active` here). -/
def wdg_get_state (slot : Int) (r : WdgRegistry) : WdgThreadState :=
  if slot < 0 ∨ (WDG_MAX_THREADS : Int) ≤ slot then WdgThreadState.idle
  else
    match r.table[slot.toNat]? with
    | none => WdgThreadState.idle
    | some e => e.state

/-- wdg_get_healthy_count: active entries among the first `wdg_count`
slots whose state is `HEALTHY`. -/
def wdg_get_healthy_count (r : WdgRegistry) : Nat :=
  ((r.table.take r.count).filter
    (fun e => e.active && e.state == WdgThreadState.healthy)).length

/-- One iteration of the checker loop body for a single entry at clock
`now` (`wdg_checker_fn`, lines 317-366): inactive entries are skipped;
`elapsed > timeout_ms` fires the unresponsive/recovery path once per
episode (ending with `state = RECOVERED` and both per-entry counters
incremented, and reporting the single recovery invocation);
`elapsed > timeout_ms * 3 / 4` (computed in `uint32_t`) moves a
`HEALTHY` entry to `WARNING`. -/
def wdg_check_entry (now : Int) (e : WdgEntry) :
    WdgEntry × Option WdgRecoveryEvent :=
  if e.active = false then (e, none)
  else if now - e.last_heartbeat > (e.timeout_ms : Int) then
    if e.state ≠ WdgThreadState.unresponsive ∧
       e.state ≠ WdgThreadState.recovered then
      ({ e with
         state := WdgThreadState.recovered
         timeout_count := e.timeout_count + 1
         recovery_count := e.recovery_count + 1 },
       some { cb := e.recovery_cb
              thread_name := e.name
              elapsed_ms := ((now - e.last_heartbeat) % (2 ^ 32 : Int)).toNat })
    else (e, none)
  else if now - e.last_heartbeat > ((e.timeout_ms * 3 % 2 ^ 32) / 4 : Nat) then
    if e.state = WdgThreadState.healthy then
      ({ e with state := WdgThreadState.warning }, none)
    else (e, none)
  else (e, none)

/-- One tick of the checker thread at clock `now`: if disabled, nothing
happens (not even `checks_performed`); otherwise `checks_performed` is
incremented and every entry with index below `wdg_count` is evaluated by
`wdg_check_entry`; each recovery invocation increments
`total_timeouts` and `total_recoveries` once.  Returns the updated state
and the list of recovery invocations in slot order. -/
def wdg_checker_tick (now : Int) (r : WdgRegistry) :
    WdgRegistry × List WdgRecoveryEvent :=
  if r.enabled = false then (r, [])
  else
    let front := (r.table.take r.count).map
      (fun e => (wdg_check_entry now e).1)
    let evs := (r.table.take r.count).filterMap
      (fun e => (wdg_check_entry now e).2)
    ({ table := front ++ r.table.drop r.count
       count := r.count
       enabled := r.enabled
       stats := { total_heartbeats := r.stats.total_heartbeats
                  total_timeouts := r.stats.total_timeouts + evs.length
                  total_recoveries := r.stats.total_recoveries + evs.length
                  checks_performed := r.stats.checks_performed + 1 } },
     evs)

/-- API-level operations on the watchdog module.  The read-only calls
(`wdg_get_state`, `wdg_get_healthy_count`, `wdg_dump_status`) are
included as `query` / `report`: they take the mutex and read but modify
nothing. -/
inductive WdgOp where
  | register (name : String) (timeout_ms : Nat) (cb : Option Nat) (now : Int)
  | heartbeat (slot : Int) (now : Int)
  | unregister (slot : Int)
  | setEnabled (enable : Bool)
  | tick (now : Int)
  | query (slot : Int)
  | report
deriving Repr

/-- State effect of one operation. -/
def wdgStep (op : WdgOp) (r : WdgRegistry) : WdgRegistry :=
  match op with
  | WdgOp.register name timeout_ms cb now =>
      (wdg_register name timeout_ms cb now r).2
  | WdgOp.heartbeat slot now => wdg_heartbeat slot now r
  | WdgOp.unregister slot => wdg_unregister slot r
  | WdgOp.setEnabled enable => wdg_enable enable r
  | WdgOp.tick now => (wdg_checker_tick now r).1
  | WdgOp.query _ => r
  | WdgOp.report => r

/-- Run a sequence of operations from a starting state. -/
def wdgRun (ops : List WdgOp) (r : WdgRegistry) : WdgRegistry :=
  ops.foldl (fun s op => wdgStep op s) r

/-- Shape invariant maintained by every operation: the table always has
its static size `WDG_MAX_THREADS`, the high-water mark `wdg_count` never
exceeds it, and every slot at or above the high-water mark is still in
its zero-initialised condition. -/
def WdgTableInv (r : WdgRegistry) : Prop :=
  r.table.length = WDG_MAX_THREADS ∧
  r.count ≤ WDG_MAX_THREADS ∧
  ∀ i, r.count ≤ i → i < WDG_MAX_THREADS → r.table[i]? = some wdgInitEntry

/-- Statistics invariant: each global aggregate equals the sum of the
corresponding per-entry counter over the whole table. -/
def WdgSumInv (r : WdgRegistry) : Prop :=
  r.stats.total_heartbeats = (r.table.map WdgEntry.heartbeat_count).sum ∧
  r.stats.total_timeouts = (r.table.map WdgEntry.timeout_count).sum ∧
  r.stats.total_recoveries = (r.table.map WdgEntry.recovery_count).sum

/-- Concrete thread name used in witness scenarios. -/
def wdgNameA : String := "A"

/-- Second concrete thread name used in witness scenarios. -/
def wdgNameB : String := "B"

/-- The entry produced by registering thread A with a 100 ms timeout and
no callback at clock 0. -/
def wdgEntryA : WdgEntry :=
  { active := true
    name := wdgNameA
    timeout_ms := 100
    last_heartbeat := 0
    state := WdgThreadState.idle
    recovery_cb := none
    heartbeat_count := 0
    timeout_count := 0
    recovery_count := 0 }

/-- The same entry after one heartbeat at clock 0 (state HEALTHY). -/
def wdgEntryH : WdgEntry :=
  { wdgEntryA with state := WdgThreadState.healthy,
                   heartbeat_count := 1 }

/-- The entry produced by registering thread A with a 100 ms timeout and
callback 7 at clock 0. -/
def wdgEntryA7 : WdgEntry :=
  { wdgEntryA with recovery_cb := some 7 }

/-- Registry after registering thread A (timeout 100 ms, no callback). -/
def wdgRegA : WdgRegistry :=
  (wdg_register wdgNameA 100 none 0 wdgInitRegistry).2

/-- Registry after registering thread A (timeout 100 ms, callback 7). -/
def wdgRegA7 : WdgRegistry :=
  (wdg_register wdgNameA 100 (some 7) 0 wdgInitRegistry).2

/-- A registry whose 8 slots are all taken. -/
def wdgFullRegistry : WdgRegistry :=
  wdgRun [WdgOp.register wdgNameA 10 none 0, WdgOp.register wdgNameA 10 none 0,
          WdgOp.register wdgNameA 10 none 0, WdgOp.register wdgNameA 10 none 0,
          WdgOp.register wdgNameA 10 none 0, WdgOp.register wdgNameA 10 none 0,
          WdgOp.register wdgNameA 10 none 0, WdgOp.register wdgNameA 10 none 0]
    wdgInitRegistry

/-- C6: registration with the table already at capacity fails with the
failure value (`-1`, modelled as `none`) and leaves the whole registry
state unchanged. -/
theorem C6_register_full_noop (name : String) (timeout_ms : Nat)
    (cb : Option Nat) (now : Int) (r : WdgRegistry)
    (h : r.count ≥ WDG_MAX_THREADS) :
    wdg_register name timeout_ms cb now r = (none, r) := by
  simp [wdg_register, h]

/-- C6 witness: the 9th registration on a full table fails and changes
nothing. -/
theorem C6_register_full_noop_witness :
    wdg_register wdgNameB 10 none 0 wdgFullRegistry = (none, wdgFullRegistry) :=
  C6_register_full_noop wdgNameB 10 none 0 wdgFullRegistry (by decide)

/-- C4: a heartbeat on an in-range active slot sets that entry's state to
HEALTHY, updates `last_heartbeat` to the clock value, increments the
per-entry and global heartbeat counters by one, changes nothing else,
and the state queried immediately afterwards is HEALTHY. -/
theorem C4_heartbeat_forces_healthy (r : WdgRegistry) (slot now : Int)
    (e : WdgEntry) (h0 : 0 ≤ slot) (h1 : slot < (WDG_MAX_THREADS : Int))
    (he : r.table[slot.toNat]? = some e) (ha : e.active = true) :
    wdg_heartbeat slot now r =
      { r with
        table := r.table.set slot.toNat
          { e with
            last_heartbeat := now
            state := WdgThreadState.healthy
            heartbeat_count := e.heartbeat_count + 1 }
        stats := { r.stats with
                   total_heartbeats := r.stats.total_heartbeats + 1 } } ∧
    wdg_get_state slot (wdg_heartbeat slot now r) = WdgThreadState.healthy := by
  have hnot : ¬ (slot < 0 ∨ (WDG_MAX_THREADS : Int) ≤ slot) := by
    push_neg
    exact ⟨h0, h1⟩
  have hlt : slot.toNat < r.table.length := (List.getElem?_eq_some_iff.mp he).1
  have heq : wdg_heartbeat slot now r =
      { r with
        table := r.table.set slot.toNat
          { e with
            last_heartbeat := now
            state := WdgThreadState.healthy
            heartbeat_count := e.heartbeat_count + 1 }
        stats := { r.stats with
                   total_heartbeats := r.stats.total_heartbeats + 1 } } := by
    unfold wdg_heartbeat
    rw [if_neg hnot, he]
    simp [ha]
  refine ⟨heq, ?_⟩
  rw [heq]
  unfold wdg_get_state
  rw [if_neg hnot]
  simp [List.getElem?_set_self hlt]

/-- C4 witness: a heartbeat at clock 0 on freshly registered thread A. -/
theorem C4_heartbeat_forces_healthy_witness :
    wdg_heartbeat 0 0 wdgRegA =
      { wdgRegA with
        table := wdgRegA.table.set 0
          { wdgEntryA with
            last_heartbeat := 0
            state := WdgThreadState.healthy
            heartbeat_count := wdgEntryA.heartbeat_count + 1 }
        stats := { wdgRegA.stats with
                   total_heartbeats := wdgRegA.stats.total_heartbeats + 1 } } ∧
    wdg_get_state 0 (wdg_heartbeat 0 0 wdgRegA) = WdgThreadState.healthy :=
  C4_heartbeat_forces_healthy wdgRegA 0 0 wdgEntryA (by decide) (by decide)
    (by decide) (by decide)

/-- C7: unregistering the same slot twice is the same as unregistering it
once, for every slot value and registry; and a heartbeat on an
out-of-range or inactive slot leaves the whole registry unchanged. -/
theorem C7_unregister_idempotent_heartbeat_noop (r : WdgRegistry)
    (slot now : Int) :
    wdg_unregister slot (wdg_unregister slot r) = wdg_unregister slot r ∧
    ((slot < 0 ∨ (WDG_MAX_THREADS : Int) ≤ slot ∨
      (∀ e, r.table[slot.toNat]? = some e → e.active = false)) →
      wdg_heartbeat slot now r = r) := by
  constructor
  · by_cases hr : slot < 0 ∨ (WDG_MAX_THREADS : Int) ≤ slot
    · simp [wdg_unregister, hr]
    · rcases hget : r.table[slot.toNat]? with _ | e
      · simp [wdg_unregister, hr, hget]
      · by_cases ha : e.active
        · have hlt : slot.toNat < r.table.length :=
            (List.getElem?_eq_some_iff.mp hget).1
          simp [wdg_unregister, hr, hget, ha, List.getElem?_set_self hlt]
        · simp [wdg_unregister, hr, hget, ha]
  · intro h
    by_cases hr : slot < 0 ∨ (WDG_MAX_THREADS : Int) ≤ slot
    · simp [wdg_heartbeat, hr]
    · rcases hget : r.table[slot.toNat]? with _ | e
      · simp [wdg_heartbeat, hr, hget]
      · have ha : e.active = false := by
          rcases h with h | h | h

          · exact absurd (Or.inl h) hr
          · exact absurd (Or.inr h) hr
          · exact h e hget
        simp [wdg_heartbeat, hr, hget, ha]

/-- C7 witness: double unregister of slot 0 and heartbeats on a negative
slot and on an in-range inactive slot are no-ops. -/
theorem C7_unregister_idempotent_heartbeat_noop_witness :
    (wdg_unregister 0 (wdg_unregister 0 wdgRegA) = wdg_unregister 0 wdgRegA) ∧
    wdg_heartbeat (-1) 5 wdgRegA = wdgRegA ∧
    wdg_heartbeat 3 5 wdgRegA = wdgRegA :=
  ⟨(C7_unregister_idempotent_heartbeat_noop wdgRegA 0 5).1,
   (C7_unregister_idempotent_heartbeat_noop wdgRegA (-1) 5).2
     (Or.inl (by decide)),
   (C7_unregister_idempotent_heartbeat_noop wdgRegA 3 5).2
     (Or.inr (Or.inr (by decide)))⟩

/-- C5: while the watchdog is disabled a checker tick changes nothing
(not even `checks_performed`) and performs no recovery invocation; and
`wdg_heartbeat` is oblivious to the enable flag, so heartbeats while
disabled are recorded exactly as when enabled. -/
theorem C5_disabled_tick_frozen_heartbeats_recorded (r : WdgRegistry)
    (now : Int) (h : r.enabled = false) :
    wdg_checker_tick now r = (r, []) ∧
    (∀ (slot now2 : Int) (r2 : WdgRegistry) (b : Bool),
      wdg_heartbeat slot now2 { r2 with enabled := b } =
        { wdg_heartbeat slot now2 r2 with enabled := b }) := by
  constructor
  · simp [wdg_checker_tick, h]
  · intro slot now2 r2 b
    by_cases hr : slot < 0 ∨ (WDG_MAX_THREADS : Int) ≤ slot
    · simp [wdg_heartbeat, hr]
    · rcases hget : r2.table[slot.toNat]? with _ | e
      · simp [wdg_heartbeat, hr, hget]
      · by_cases ha : e.active <;> simp [wdg_heartbeat, hr, hget, ha]

/-- C5 witness: with the watchdog disabled, a tick at clock 500 changes
nothing, and a heartbeat recorded while disabled equals the enabled-case
heartbeat with only the flag differing. -/
theorem C5_disabled_tick_frozen_heartbeats_recorded_witness :
    wdg_checker_tick 500 (wdg_enable false wdgRegA) =
      (wdg_enable false wdgRegA, []) ∧
    wdg_heartbeat 0 5 { wdgRegA with enabled := false } =
      { wdg_heartbeat 0 5 wdgRegA with enabled := false } :=
  ⟨(C5_disabled_tick_frozen_heartbeats_recorded (wdg_enable false wdgRegA) 500
      (by decide)).1,
   (C5_disabled_tick_frozen_heartbeats_recorded (wdg_enable false wdgRegA) 500
      (by decide)).2 0 5 wdgRegA false⟩

/-- A checker tick never changes the enable flag. -/
theorem wdg_tick_enabled (now : Int) (r : WdgRegistry) :
    ((wdg_checker_tick now r).1).enabled = r.enabled := by
  unfold wdg_checker_tick
  split <;> rfl

/-- A checker tick never changes the high-water mark. -/
theorem wdg_tick_count (now : Int) (r : WdgRegistry) :
    ((wdg_checker_tick now r).1).count = r.count := by
  unfold wdg_checker_tick
  split <;> rfl

/-- A checker tick never changes the global heartbeat total. -/
theorem wdg_tick_total_heartbeats (now : Int) (r : WdgRegistry) :
    ((wdg_checker_tick now r).1).stats.total_heartbeats =
      r.stats.total_heartbeats := by
  unfold wdg_checker_tick
  split <;> rfl

/-- A checker tick preserves the table length. -/
theorem wdg_tick_table_length (now : Int) (r : WdgRegistry) :
    ((wdg_checker_tick now r).1).table.length = r.table.length := by
  unfold wdg_checker_tick
  split
  · rfl
  · simp only [List.length_append, List.length_map, List.length_take,
      List.length_drop]
    omega

/-- On an enabled tick, the slot below the high-water mark holds the
result of the per-entry check. -/
theorem wdg_tick_table_getElem (now : Int) (r : WdgRegistry) (i : Nat)
    (hen : r.enabled = true) (hi : i < r.count) (hil : i < r.table.length) :
    ((wdg_checker_tick now r).1).table[i]? =
      (r.table[i]?).map (fun e => (wdg_check_entry now e).1) := by
  unfold wdg_checker_tick
  rw [if_neg (by simp [hen])]
  rw [List.getElem?_append_left
      (by simp only [List.length_map, List.length_take]; omega)]
  rw [List.getElem?_map, List.getElem?_take_of_lt hi]

/-- A tick leaves slots at or above the high-water mark untouched. -/
theorem wdg_tick_table_getElem_high (now : Int) (r : WdgRegistry) (i : Nat)
    (hi : r.count ≤ i) (hcl : r.count ≤ r.table.length) :
    ((wdg_checker_tick now r).1).table[i]? = r.table[i]? := by
  unfold wdg_checker_tick
  split
  · rfl
  · rw [List.getElem?_append_right
      (by simp only [List.length_map, List.length_take]; omega)]
    rw [List.getElem?_drop]
    simp only [List.length_map, List.length_take]
    congr 1
    omega

/-- wdg_heartbeat never changes the high-water mark. -/
theorem wdg_heartbeat_count_eq (slot now : Int) (r : WdgRegistry) :
    (wdg_heartbeat slot now r).count = r.count := by
  unfold wdg_heartbeat
  split
  · rfl
  · split
    · rfl
    · split <;> rfl

/-- wdg_unregister never changes the high-water mark. -/
theorem wdg_unregister_count_eq (slot : Int) (r : WdgRegistry) :
    (wdg_unregister slot r).count = r.count := by
  unfold wdg_unregister
  split
  · rfl
  · split
    · rfl
    · split <;> rfl

/-- No operation ever decreases the high-water mark. -/
theorem wdgStep_count_mono (op : WdgOp) (r : WdgRegistry) :
    r.count ≤ (wdgStep op r).count := by
  cases op with
  | register name timeout_ms cb now =>
      show r.count ≤ (wdg_register name timeout_ms cb now r).2.count
      unfold wdg_register
      split
      · exact Nat.le_refl _
      · exact Nat.le_succ _
  | heartbeat slot now =>
      show r.count ≤ (wdg_heartbeat slot now r).count
      rw [wdg_heartbeat_count_eq]
  | unregister slot =>
      show r.count ≤ (wdg_unregister slot r).count
      rw [wdg_unregister_count_eq]
  | setEnabled enable => exact Nat.le_refl _
  | tick now =>
      show r.count ≤ ((wdg_checker_tick now r).1).count
      rw [wdg_tick_count]
  | query slot => exact Nat.le_refl _
  | report => exact Nat.le_refl _

/-- Running any operation sequence never decreases the high-water mark. -/
theorem wdgRun_count_mono (ops : List WdgOp) (r : WdgRegistry) :
    r.count ≤ (wdgRun ops r).count := by
  induction ops generalizing r with
  | nil => exact Nat.le_refl _
  | cons op ops ih =>
      exact Nat.le_trans (wdgStep_count_mono op r) (ih (wdgStep op r))

/-- Equation: registration on a full table. -/
theorem wdg_register_eq_full (name : String) (timeout_ms : Nat)
    (cb : Option Nat) (now : Int) (r : WdgRegistry)
    (h : WDG_MAX_THREADS ≤ r.count) :
    wdg_register name timeout_ms cb now r = (none, r) := by
  unfold wdg_register
  rw [if_pos h]

/-- Equation: successful registration fills the next free slot. -/
theorem wdg_register_eq_ok (name : String) (timeout_ms : Nat)
    (cb : Option Nat) (now : Int) (r : WdgRegistry)
    (h : r.count < WDG_MAX_THREADS) :
    wdg_register name timeout_ms cb now r =
      (some r.count,
       { r with
         table := r.table.set r.count (wdgFreshEntry name timeout_ms cb now)
         count := r.count + 1 }) := by
  unfold wdg_register
  rw [if_neg (by omega)]

/-- Equation: heartbeat on an out-of-range slot. -/
theorem wdg_heartbeat_eq_out (slot now : Int) (r : WdgRegistry)
    (h : slot < 0 ∨ (WDG_MAX_THREADS : Int) ≤ slot) :
    wdg_heartbeat slot now r = r := by
  unfold wdg_heartbeat
  rw [if_pos h]

/-- Equation: heartbeat on a missing table position. -/
theorem wdg_heartbeat_eq_none (slot now : Int) (r : WdgRegistry)
    (h : ¬ (slot < 0 ∨ (WDG_MAX_THREADS : Int) ≤ slot))
    (hget : r.table[slot.toNat]? = none) :
    wdg_heartbeat slot now r = r := by
  unfold wdg_heartbeat
  rw [if_neg h, hget]

/-- Equation: heartbeat on an inactive slot. -/
theorem wdg_heartbeat_eq_inactive (slot now : Int) (r : WdgRegistry)
    (e : WdgEntry) (h : ¬ (slot < 0 ∨ (WDG_MAX_THREADS : Int) ≤ slot))
    (hget : r.table[slot.toNat]? = some e) (ha : e.active = false) :
    wdg_heartbeat slot now r = r := by
  unfold wdg_heartbeat
  rw [if_neg h, hget]
  simp [ha]

/-- Equation: heartbeat on an active slot. -/
theorem wdg_heartbeat_eq_active (slot now : Int) (r : WdgRegistry)
    (e : WdgEntry) (h : ¬ (slot < 0 ∨ (WDG_MAX_THREADS : Int) ≤ slot))
    (hget : r.table[slot.toNat]? = some e) (ha : e.active = true) :
    wdg_heartbeat slot now r =
      { r with
        table := r.table.set slot.toNat
          { e with
            last_heartbeat := now
            state := WdgThreadState.healthy
            heartbeat_count := e.heartbeat_count + 1 }
        stats := { r.stats with
                   total_heartbeats := r.stats.total_heartbeats + 1 } } := by
  unfold wdg_heartbeat
  rw [if_neg h, hget]
  simp [ha]

/-- Equation: unregister on an out-of-range slot. -/
theorem wdg_unregister_eq_out (slot : Int) (r : WdgRegistry)
    (h : slot < 0 ∨ (WDG_MAX_THREADS : Int) ≤ slot) :
    wdg_unregister slot r = r := by
  unfold wdg_unregister
  rw [if_pos h]

/-- Equation: unregister on a missing table position. -/
theorem wdg_unregister_eq_none (slot : Int) (r : WdgRegistry)
    (h : ¬ (slot < 0 ∨ (WDG_MAX_THREADS : Int) ≤ slot))
    (hget : r.table[slot.toNat]? = none) :
    wdg_unregister slot r = r := by
  unfold wdg_unregister
  rw [if_neg h, hget]

/-- Equation: unregister on an inactive slot. -/
theorem wdg_unregister_eq_inactive (slot : Int) (r : WdgRegistry)
    (e : WdgEntry) (h : ¬ (slot < 0 ∨ (WDG_MAX_THREADS : Int) ≤ slot))
    (hget : r.table[slot.toNat]? = some e) (ha : e.active = false) :
    wdg_unregister slot r = r := by
  unfold wdg_unregister
  rw [if_neg h, hget]
  simp [ha]

/-- Equation: unregister on an active slot clears only `active`. -/
theorem wdg_unregister_eq_active (slot : Int) (r : WdgRegistry)
    (e : WdgEntry) (h : ¬ (slot < 0 ∨ (WDG_MAX_THREADS : Int) ≤ slot))
    (hget : r.table[slot.toNat]? = some e) (ha : e.active = true) :
    wdg_unregister slot r =
      { r with table := r.table.set slot.toNat { e with active := false } } := by
  unfold wdg_unregister
  rw [if_neg h, hget]
  simp [ha]

/-- Equation: state query on a present table position. -/
theorem wdg_get_state_eq_some (slot : Int) (r : WdgRegistry) (e : WdgEntry)
    (h : ¬ (slot < 0 ∨ (WDG_MAX_THREADS : Int) ≤ slot))
    (hget : r.table[slot.toNat]? = some e) :
    wdg_get_state slot r = e.state := by
  unfold wdg_get_state
  rw [if_neg h, hget]

/-- The initial module state satisfies the shape invariant. -/
theorem wdgTableInv_init : WdgTableInv wdgInitRegistry := by
  refine ⟨by decide, by decide, ?_⟩
  intro i h1 h2
  show (List.replicate WDG_MAX_THREADS wdgInitEntry)[i]? = some wdgInitEntry
  exact List.getElem?_replicate_of_lt h2

/-- An active entry always sits below the high-water mark (given the
shape invariant): the zero-initialised high slots are inactive. -/
theorem wdg_active_below_count (r : WdgRegistry) (i : Nat) (e : WdgEntry)
    (hlen : r.table.length = WDG_MAX_THREADS)
    (hhigh : ∀ j, r.count ≤ j → j < WDG_MAX_THREADS →
      r.table[j]? = some wdgInitEntry)
    (hget : r.table[i]? = some e) (ha : e.active = true) : i < r.count := by
  by_contra hc
  have hi8 : i < WDG_MAX_THREADS := by
    rw [← hlen]
    exact (List.getElem?_eq_some_iff.mp hget).1
  have hini := hhigh i (by omega) hi8
  rw [hget] at hini
  have he : e = wdgInitEntry := by injection hini
  rw [he] at ha
  exact absurd ha (by decide)

/-- wdg_register preserves the shape invariant. -/
theorem wdgTableInv_register (name : String) (timeout_ms : Nat)
    (cb : Option Nat) (now : Int) (r : WdgRegistry) (h : WdgTableInv r) :
    WdgTableInv (wdg_register name timeout_ms cb now r).2 := by
  obtain ⟨hlen, hcnt, hhigh⟩ := h
  by_cases hfull : WDG_MAX_THREADS ≤ r.count
  · rw [wdg_register_eq_full name timeout_ms cb now r hfull]
    exact ⟨hlen, hcnt, hhigh⟩
  · rw [wdg_register_eq_ok name timeout_ms cb now r (by omega)]
    refine ⟨?_, ?_, ?_⟩
    · show (r.table.set r.count (wdgFreshEntry name timeout_ms cb now)).length
        = WDG_MAX_THREADS
      rw [List.length_set]
      exact hlen
    · show r.count + 1 ≤ WDG_MAX_THREADS
      omega
    · intro i h1 h2
      have h1' : r.count + 1 ≤ i := h1
      show (r.table.set r.count (wdgFreshEntry name timeout_ms cb now))[i]?
        = some wdgInitEntry
      rw [List.getElem?_set_ne (by omega)]
      exact hhigh i (by omega) h2

/-- wdg_heartbeat preserves the shape invariant. -/
theorem wdgTableInv_heartbeat (slot now : Int) (r : WdgRegistry)
    (h : WdgTableInv r) : WdgTableInv (wdg_heartbeat slot now r) := by
  obtain ⟨hlen, hcnt, hhigh⟩ := h
  by_cases hr : slot < 0 ∨ (WDG_MAX_THREADS : Int) ≤ slot
  · rw [wdg_heartbeat_eq_out slot now r hr]
    exact ⟨hlen, hcnt, hhigh⟩
  · rcases hget : r.table[slot.toNat]? with _ | e
    · rw [wdg_heartbeat_eq_none slot now r hr hget]
      exact ⟨hlen, hcnt, hhigh⟩
    · rcases ha : e.active with _ | _
      · rw [wdg_heartbeat_eq_inactive slot now r e hr hget ha]
        exact ⟨hlen, hcnt, hhigh⟩
      · rw [wdg_heartbeat_eq_active slot now r e hr hget ha]
        have hslotlow : slot.toNat < r.count :=
          wdg_active_below_count r slot.toNat e hlen hhigh hget ha
        refine ⟨?_, hcnt, ?_⟩
        · show (r.table.set slot.toNat _).length = WDG_MAX_THREADS
          rw [List.length_set]
          exact hlen
        · intro i h1 h2
          have h1' : r.count ≤ i := h1
          show (r.table.set slot.toNat _)[i]? = some wdgInitEntry
          rw [List.getElem?_set_ne (by omega)]
          exact hhigh i h1' h2

/-- wdg_unregister preserves the shape invariant. -/
theorem wdgTableInv_unregister (slot : Int) (r : WdgRegistry)
    (h : WdgTableInv r) : WdgTableInv (wdg_unregister slot r) := by
  obtain ⟨hlen, hcnt, hhigh⟩ := h
  by_cases hr : slot < 0 ∨ (WDG_MAX_THREADS : Int) ≤ slot
  · rw [wdg_unregister_eq_out slot r hr]
    exact ⟨hlen, hcnt, hhigh⟩
  · rcases hget : r.table[slot.toNat]? with _ | e
    · rw [wdg_unregister_eq_none slot r hr hget]
      exact ⟨hlen, hcnt, hhigh⟩
    · rcases ha : e.active with _ | _
      · rw [wdg_unregister_eq_inactive slot r e hr hget ha]
        exact ⟨hlen, hcnt, hhigh⟩
      · rw [wdg_unregister_eq_active slot r e hr hget ha]
        have hslotlow : slot.toNat < r.count :=
          wdg_active_below_count r slot.toNat e hlen hhigh hget ha
        refine ⟨?_, hcnt, ?_⟩
        · show (r.table.set slot.toNat _).length = WDG_MAX_THREADS
          rw [List.length_set]
          exact hlen
        · intro i h1 h2
          have h1' : r.count ≤ i := h1
          show (r.table.set slot.toNat _)[i]? = some wdgInitEntry
          rw [List.getElem?_set_ne (by omega)]
          exact hhigh i h1' h2

/-- A checker tick preserves the shape invariant. -/
theorem wdgTableInv_tick (now : Int) (r : WdgRegistry) (h : WdgTableInv r) :
    WdgTableInv ((wdg_checker_tick now r).1) := by
  obtain ⟨hlen, hcnt, hhigh⟩ := h
  refine ⟨by rw [wdg_tick_table_length, hlen], by rw [wdg_tick_count]; exact hcnt, ?_⟩
  intro i h1 h2
  rw [wdg_tick_count] at h1
  rw [wdg_tick_table_getElem_high now r i h1 (by omega)]
  exact hhigh i h1 h2

/-- Every operation preserves the shape invariant. -/
theorem wdgTableInv_step (op : WdgOp) (r : WdgRegistry) (h : WdgTableInv r) :
    WdgTableInv (wdgStep op r) := by
  cases op with
  | register name timeout_ms cb now => exact wdgTableInv_register _ _ _ _ _ h
  | heartbeat slot now => exact wdgTableInv_heartbeat _ _ _ h
  | unregister slot => exact wdgTableInv_unregister _ _ h
  | setEnabled enable => exact h
  | tick now => exact wdgTableInv_tick _ _ h
  | query slot => exact h
  | report => exact h

/-- Every state reachable from process start satisfies the shape
invariant. -/
theorem wdgTableInv_reachable (ops : List WdgOp) :
    WdgTableInv (wdgRun ops wdgInitRegistry) := by
  have main : ∀ (l : List WdgOp) (r : WdgRegistry), WdgTableInv r →
      WdgTableInv (wdgRun l r) := by
    intro l
    induction l with
    | nil => exact fun r h => h
    | cons op ops ih => exact fun r h => ih (wdgStep op r) (wdgTableInv_step op r h)
  exact main ops wdgInitRegistry wdgTableInv_init

/-- C8 counterexample: after registering thread A, sending a heartbeat
and unregistering slot 0, the slot is inactive yet `wdg_get_state`
reports HEALTHY, not IDLE — the C code never checks `active` on the
query path. -/
theorem C8_counterexample_inactive_not_idle :
    ((wdgRun [WdgOp.register wdgNameA 100 none 0, WdgOp.heartbeat 0 5,
        WdgOp.unregister 0] wdgInitRegistry).table[0]?.map WdgEntry.active
      = some false) ∧
    wdg_get_state 0 (wdgRun [WdgOp.register wdgNameA 100 none 0,
        WdgOp.heartbeat 0 5, WdgOp.unregister 0] wdgInitRegistry) =
      WdgThreadState.healthy ∧
    WdgThreadState.healthy ≠ WdgThreadState.idle := by
  exact ⟨by decide, by decide, by decide⟩

/-- C8 (amended): `wdg_get_state` returns IDLE for every out-of-range
slot and, in any reachable state, for every in-range slot that was never
allocated; an allocated-then-unregistered slot instead reports its
retained state field. -/
theorem C8_amended_get_state_idle (ops : List WdgOp) (slot : Int)
    (h : slot < 0 ∨ (WDG_MAX_THREADS : Int) ≤ slot ∨
         (wdgRun ops wdgInitRegistry).count ≤ slot.toNat) :
    wdg_get_state slot (wdgRun ops wdgInitRegistry) = WdgThreadState.idle := by
  by_cases hr : slot < 0 ∨ (WDG_MAX_THREADS : Int) ≤ slot
  · unfold wdg_get_state
    rw [if_pos hr]
  · have hhigh : (wdgRun ops wdgInitRegistry).count ≤ slot.toNat := by
      rcases h with h | h | h
      · exact absurd (Or.inl h) hr
      · exact absurd (Or.inr h) hr
      · exact h
    obtain ⟨hlen, hcnt, hinit⟩ := wdgTableInv_reachable ops
    have h8 : slot.toNat < WDG_MAX_THREADS := by
      unfold WDG_MAX_THREADS
      push_neg at hr
      have h2 := hr.2
      unfold WDG_MAX_THREADS at h2
      omega
    have hi := hinit slot.toNat hhigh h8
    rw [wdg_get_state_eq_some slot _ wdgInitEntry hr hi]
    rfl

/-- C8 (amended) witness: with only slot 0 allocated, querying the
unallocated in-range slot 5 and the out-of-range slot -2 both yield
IDLE. -/
theorem C8_amended_get_state_idle_witness :
    wdg_get_state 5 (wdgRun [WdgOp.register wdgNameA 100 none 0]
      wdgInitRegistry) = WdgThreadState.idle ∧
    wdg_get_state (-2) (wdgRun [WdgOp.register wdgNameA 100 none 0]
      wdgInitRegistry) = WdgThreadState.idle :=
  ⟨C8_amended_get_state_idle [WdgOp.register wdgNameA 100 none 0] 5
     (Or.inr (Or.inr (by decide))),
   C8_amended_get_state_idle [WdgOp.register wdgNameA 100 none 0] (-2)
     (Or.inl (by decide))⟩

/-- Equation: the checker skips inactive entries. -/
theorem wdg_check_entry_eq_inactive (now : Int) (e : WdgEntry)
    (ha : e.active = false) : wdg_check_entry now e = (e, none) := by
  unfold wdg_check_entry
  rw [if_pos ha]

/-- Equation: first crossing of the full timeout fires the recovery
path. -/
theorem wdg_check_entry_eq_timeout (now : Int) (e : WdgEntry)
    (ha : e.active = true)
    (hs : e.state ≠ WdgThreadState.unresponsive ∧
          e.state ≠ WdgThreadState.recovered)
    (ht : (e.timeout_ms : Int) < now - e.last_heartbeat) :
    wdg_check_entry now e =
      ({ e with
         state := WdgThreadState.recovered
         timeout_count := e.timeout_count + 1
         recovery_count := e.recovery_count + 1 },
       some { cb := e.recovery_cb
              thread_name := e.name
              elapsed_ms := ((now - e.last_heartbeat) % (2 ^ 32 : Int)).toNat }) := by
  unfold wdg_check_entry
  rw [if_neg (by simp [ha]), if_pos ht, if_pos hs]

/-- Equation: past the timeout but already UNRESPONSIVE or RECOVERED,
the checker does nothing (no re-trigger within an episode). -/
theorem wdg_check_entry_eq_episode_done (now : Int) (e : WdgEntry)
    (ha : e.active = true)
    (hs : ¬ (e.state ≠ WdgThreadState.unresponsive ∧
             e.state ≠ WdgThreadState.recovered))
    (ht : (e.timeout_ms : Int) < now - e.last_heartbeat) :
    wdg_check_entry now e = (e, none) := by
  unfold wdg_check_entry
  rw [if_neg (by simp [ha]), if_pos ht, if_neg hs]

/-- Equation: in the warning zone a HEALTHY entry turns WARNING. -/
theorem wdg_check_entry_eq_warning (now : Int) (e : WdgEntry)
    (ha : e.active = true)
    (hle : now - e.last_heartbeat ≤ (e.timeout_ms : Int))
    (hgt : ((e.timeout_ms * 3 % 2 ^ 32) / 4 : Nat) <
           (now - e.last_heartbeat : Int))
    (hh : e.state = WdgThreadState.healthy) :
    wdg_check_entry now e = ({ e with state := WdgThreadState.warning }, none) := by
  unfold wdg_check_entry
  rw [if_neg (by simp [ha]), if_neg (by omega), if_pos hgt, if_pos hh]

/-- Equation: in the warning zone a non-HEALTHY entry is untouched. -/
theorem wdg_check_entry_eq_nowarning (now : Int) (e : WdgEntry)
    (ha : e.active = true)
    (hle : now - e.last_heartbeat ≤ (e.timeout_ms : Int))
    (hgt : ((e.timeout_ms * 3 % 2 ^ 32) / 4 : Nat) <
           (now - e.last_heartbeat : Int))
    (hh : e.state ≠ WdgThreadState.healthy) :
    wdg_check_entry now e = (e, none) := by
  unfold wdg_check_entry
  rw [if_neg (by simp [ha]), if_neg (by omega), if_pos hgt, if_neg hh]

/-- Equation: below the warning threshold nothing happens. -/
theorem wdg_check_entry_eq_quiet (now : Int) (e : WdgEntry)
    (ha : e.active = true)
    (hle : now - e.last_heartbeat ≤ (e.timeout_ms : Int))
    (hle2 : (now - e.last_heartbeat : Int) ≤
            ((e.timeout_ms * 3 % 2 ^ 32) / 4 : Nat)) :
    wdg_check_entry now e = (e, none) := by
  unfold wdg_check_entry
  rw [if_neg (by simp [ha]), if_neg (by omega), if_neg (by omega)]

/-- A RECOVERED entry is never touched by a checker evaluation (any
clock value) and produces no recovery invocation. -/
theorem wdg_check_entry_recovered_noop (now : Int) (e : WdgEntry)
    (hs : e.state = WdgThreadState.recovered) :
    wdg_check_entry now e = (e, none) := by
  rcases ha : e.active with _ | _
  · exact wdg_check_entry_eq_inactive now e ha
  · by_cases ht : (e.timeout_ms : Int) < now - e.last_heartbeat
    · refine wdg_check_entry_eq_episode_done now e ha ?_ ht
      rw [hs]
      simp
    · by_cases hw : ((e.timeout_ms * 3 % 2 ^ 32) / 4 : Nat) <
        (now - e.last_heartbeat : Int)
      · refine wdg_check_entry_eq_nowarning now e ha (by omega) hw ?_
        rw [hs]
        decide
      · exact wdg_check_entry_eq_quiet now e ha (by omega) (by omega)

/-- C2 counterexample: thread A is registered with timeout 100 at clock
0 and never sends a heartbeat.  At the tick at clock 80 (elapsed 80 ≥
0.75·100) the claim demands WARNING, and at the tick at clock 100
(elapsed 100 ≥ 100) it demands UNRESPONSIVE; the code leaves the entry
IDLE both times, because the WARNING transition only fires from HEALTHY
and the timeout comparison is strict. -/
theorem C2_counterexample_idle_stays_idle :
    wdg_get_state 0 (wdgRun [WdgOp.register wdgNameA 100 none 0,
        WdgOp.tick 80] wdgInitRegistry) = WdgThreadState.idle ∧
    wdg_get_state 0 (wdgRun [WdgOp.register wdgNameA 100 none 0,
        WdgOp.tick 100] wdgInitRegistry) = WdgThreadState.idle ∧
    WdgThreadState.idle ≠ WdgThreadState.warning ∧
    WdgThreadState.idle ≠ WdgThreadState.unresponsive :=
  ⟨by decide, by decide, by decide, by decide⟩

/-- C2 (amended): an active entry that is still IDLE (registered, no
heartbeat yet) is left completely untouched by every checker evaluation
while elapsed ≤ timeout — in particular it never becomes WARNING — and
at the first evaluation with elapsed strictly greater than its timeout
the recovery invocation fires once and its observable state becomes
RECOVERED (UNRESPONSIVE is transient inside the tick). -/
theorem C2_amended_idle_silent_until_strict_timeout (now : Int)
    (e : WdgEntry) (ha : e.active = true)
    (hs : e.state = WdgThreadState.idle) :
    (now - e.last_heartbeat ≤ (e.timeout_ms : Int) →
      wdg_check_entry now e = (e, none)) ∧
    ((e.timeout_ms : Int) < now - e.last_heartbeat →
      wdg_check_entry now e =
        ({ e with
           state := WdgThreadState.recovered
           timeout_count := e.timeout_count + 1
           recovery_count := e.recovery_count + 1 },
         some { cb := e.recovery_cb
                thread_name := e.name
                elapsed_ms := ((now - e.last_heartbeat) % (2 ^ 32 : Int)).toNat })) := by
  constructor
  · intro hle
    by_cases hw : ((e.timeout_ms * 3 % 2 ^ 32) / 4 : Nat) <
      (now - e.last_heartbeat : Int)
    · refine wdg_check_entry_eq_nowarning now e ha hle hw ?_
      rw [hs]
      decide
    · exact wdg_check_entry_eq_quiet now e ha hle (by omega)
  · intro ht
    refine wdg_check_entry_eq_timeout now e ha ?_ ht
    rw [hs]
    exact ⟨by decide, by decide⟩

/-- C2 (amended) witness: the freshly registered entry A (timeout 100,
registered at clock 0) is untouched at clock 80 and fires its single
recovery at clock 101, ending RECOVERED. -/
theorem C2_amended_idle_silent_until_strict_timeout_witness :
    wdg_check_entry 80 wdgEntryA = (wdgEntryA, none) ∧
    wdg_check_entry 101 wdgEntryA =
      ({ wdgEntryA with
         state := WdgThreadState.recovered
         timeout_count := 1
         recovery_count := 1 },
       some { cb := none, thread_name := wdgNameA, elapsed_ms := 101 }) :=
  ⟨(C2_amended_idle_silent_until_strict_timeout 80 wdgEntryA (by decide)
      (by decide)).1 (by decide),
   (C2_amended_idle_silent_until_strict_timeout 101 wdgEntryA (by decide)
      (by decide)).2 (by decide)⟩

/-- C3 counterexample: a HEALTHY entry with timeout 100 and last
heartbeat at clock 0.  At the tick at clock 75 elapsed equals exactly
75% of the timeout, so the claim demands WARNING, but the code's strict
comparison leaves it HEALTHY; at the tick at clock 100 elapsed equals
100% of the timeout, so the claim demands UNRESPONSIVE, but the code
only moves it to WARNING. -/
theorem C3_counterexample_boundary_not_transitioned :
    wdg_get_state 0 (wdgRun [WdgOp.register wdgNameA 100 none 0,
        WdgOp.heartbeat 0 0, WdgOp.tick 75] wdgInitRegistry) =
      WdgThreadState.healthy ∧
    wdg_get_state 0 (wdgRun [WdgOp.register wdgNameA 100 none 0,
        WdgOp.heartbeat 0 0, WdgOp.tick 100] wdgInitRegistry) =
      WdgThreadState.warning ∧
    WdgThreadState.healthy ≠ WdgThreadState.warning ∧
    WdgThreadState.warning ≠ WdgThreadState.unresponsive :=
  ⟨by decide, by decide, by decide, by decide⟩

/-- C3 (amended): at a checker evaluation, an active HEALTHY entry with
elapsed strictly greater than `timeout_ms * 3 / 4` (computed in
`uint32_t` from that entry's own timeout) but not beyond `timeout_ms`
moves to WARNING; an active HEALTHY or WARNING entry with elapsed
strictly greater than its own `timeout_ms` takes the unresponsive path:
its timeout is counted, the recovery fires, and it ends the evaluation
RECOVERED. -/
theorem C3_amended_strict_own_thresholds (now : Int) (e : WdgEntry)
    (ha : e.active = true) :
    (e.state = WdgThreadState.healthy →
     ((e.timeout_ms * 3 % 2 ^ 32) / 4 : Nat) < (now - e.last_heartbeat : Int) →
     now - e.last_heartbeat ≤ (e.timeout_ms : Int) →
     wdg_check_entry now e =
       ({ e with state := WdgThreadState.warning }, none)) ∧
    ((e.state = WdgThreadState.healthy ∨ e.state = WdgThreadState.warning) →
     (e.timeout_ms : Int) < now - e.last_heartbeat →
     wdg_check_entry now e =
       ({ e with
          state := WdgThreadState.recovered
          timeout_count := e.timeout_count + 1
          recovery_count := e.recovery_count + 1 },
        some { cb := e.recovery_cb
               thread_name := e.name
               elapsed_ms := ((now - e.last_heartbeat) % (2 ^ 32 : Int)).toNat })) := by
  constructor
  · intro hh hgt hle
    exact wdg_check_entry_eq_warning now e ha hle hgt hh
  · intro hs ht
    refine wdg_check_entry_eq_timeout now e ha ?_ ht
    rcases hs with h | h <;> rw [h] <;> exact ⟨by decide, by decide⟩

/-- C3 (amended) witness: the HEALTHY entry A (timeout 100, last
heartbeat 0) turns WARNING at clock 76 and takes the timeout path at
clock 150. -/
theorem C3_amended_strict_own_thresholds_witness :
    wdg_check_entry 76 wdgEntryH =
      ({ wdgEntryH with state := WdgThreadState.warning }, none) ∧
    wdg_check_entry 150 wdgEntryH =
      ({ wdgEntryH with
         state := WdgThreadState.recovered
         timeout_count := 1
         recovery_count := 1 },
       some { cb := none, thread_name := wdgNameA, elapsed_ms := 150 }) :=
  ⟨(C3_amended_strict_own_thresholds 76 wdgEntryH (by decide)).1 (by decide)
     (by decide) (by decide),
   (C3_amended_strict_own_thresholds 150 wdgEntryH (by decide)).2
     (Or.inl (by decide)) (by decide)⟩

/-- If exactly the element at index `i` is kept by `filterMap`, the
result is that single image. -/
theorem filterMap_eq_single_of_index {α β : Type} (f : α → Option β)
    (l : List α) (i : Nat) (a : α) (b : β)
    (hi : l[i]? = some a) (hf : f a = some b)
    (hothers : ∀ j a2, j ≠ i → l[j]? = some a2 → f a2 = none) :
    l.filterMap f = [b] := by
  induction l generalizing i with
  | nil => simp at hi
  | cons x xs ih =>
    cases i with
    | zero =>
      have hx : x = a := by
        have h0 : some x = some a := by simpa using hi
        injection h0
      subst hx
      rw [List.filterMap_cons_some hf]
      have hnil : xs.filterMap f = [] := by
        rw [List.filterMap_eq_nil_iff]
        intro y hy
        obtain ⟨j, hjlt, hyj⟩ := List.getElem_of_mem hy
        have hj2 : xs[j]? = some y := by
          rw [List.getElem?_eq_getElem hjlt, hyj]
        exact hothers (j + 1) y (by omega) (by simpa using hj2)
      rw [hnil]
    | succ k =>
      have hxf : f x = none := hothers 0 x (by omega) (by simp)
      rw [List.filterMap_cons_none hxf]
      refine ih k ?_ ?_
      · simpa using hi
      · intro j a2 hj hja2
        exact hothers (j + 1) a2 (by omega) (by simpa using hja2)

/-- On an enabled tick, the recovery-invocation list is the filtered map
of the per-entry checks over the allocated prefix. -/
theorem wdg_tick_events (now : Int) (r : WdgRegistry)
    (hen : r.enabled = true) :
    (wdg_checker_tick now r).2 =
      (r.table.take r.count).filterMap
        (fun e2 => (wdg_check_entry now e2).2) := by
  unfold wdg_checker_tick
  rw [if_neg (by simp [hen])]

/-- The global timeout and recovery totals each grow by the number of
recovery invocations of the tick; the heartbeat total never changes. -/
theorem wdg_tick_totals (now : Int) (r : WdgRegistry) :
    ((wdg_checker_tick now r).1).stats.total_timeouts =
      r.stats.total_timeouts + ((wdg_checker_tick now r).2).length ∧
    ((wdg_checker_tick now r).1).stats.total_recoveries =
      r.stats.total_recoveries + ((wdg_checker_tick now r).2).length := by
  unfold wdg_checker_tick
  split
  · exact ⟨rfl, rfl⟩
  · exact ⟨rfl, rfl⟩

/-- C1: when an active entry first crosses its timeout at an enabled
tick (state neither UNRESPONSIVE nor RECOVERED, elapsed strictly past
its own timeout) and no other allocated entry produces a recovery
invocation at this tick, then the tick performs exactly one recovery
invocation — with the entry's registered callback if present, else the
default (`cb = none`) — and leaves the entry RECOVERED with
`timeout_count` and `recovery_count` each incremented by one, and the
global `total_timeouts` and `total_recoveries` each incremented by one
(`total_heartbeats` untouched); moreover any later checker evaluation
of the resulting RECOVERED entry (no intervening heartbeat) changes
nothing and produces no recovery invocation. -/
theorem C1_exactly_one_recovery_per_episode (r : WdgRegistry) (i : Nat)
    (now : Int) (e : WdgEntry)
    (hen : r.enabled = true)
    (hi : i < r.count)
    (he : r.table[i]? = some e)
    (ha : e.active = true)
    (hs : e.state ≠ WdgThreadState.unresponsive ∧
          e.state ≠ WdgThreadState.recovered)
    (ht : (e.timeout_ms : Int) < now - e.last_heartbeat)
    (hothers : ∀ j e2, j < r.count → j ≠ i → r.table[j]? = some e2 →
               (wdg_check_entry now e2).2 = none) :
    (wdg_checker_tick now r).2 =
      [{ cb := e.recovery_cb
         thread_name := e.name
         elapsed_ms := ((now - e.last_heartbeat) % (2 ^ 32 : Int)).toNat }] ∧
    ((wdg_checker_tick now r).1).table[i]? =
      some { e with
             state := WdgThreadState.recovered
             timeout_count := e.timeout_count + 1
             recovery_count := e.recovery_count + 1 } ∧
    ((wdg_checker_tick now r).1).stats.total_timeouts =
      r.stats.total_timeouts + 1 ∧
    ((wdg_checker_tick now r).1).stats.total_recoveries =
      r.stats.total_recoveries + 1 ∧
    ((wdg_checker_tick now r).1).stats.total_heartbeats =
      r.stats.total_heartbeats ∧
    (∀ now2 : Int,
      wdg_check_entry now2
        { e with
          state := WdgThreadState.recovered
          timeout_count := e.timeout_count + 1
          recovery_count := e.recovery_count + 1 } =
        ({ e with
           state := WdgThreadState.recovered
           timeout_count := e.timeout_count + 1
           recovery_count := e.recovery_count + 1 }, none)) := by
  have hil : i < r.table.length := (List.getElem?_eq_some_iff.mp he).1
  have htake : (r.table.take r.count)[i]? = some e := by
    rw [List.getElem?_take_of_lt hi]
    exact he
  have hfe : (fun e2 => (wdg_check_entry now e2).2) e =
      some { cb := e.recovery_cb
             thread_name := e.name
             elapsed_ms := ((now - e.last_heartbeat) % (2 ^ 32 : Int)).toNat } := by
    show (wdg_check_entry now e).2 = _
    rw [wdg_check_entry_eq_timeout now e ha hs ht]
  have hsingle : (r.table.take r.count).filterMap
      (fun e2 => (wdg_check_entry now e2).2) =
      [{ cb := e.recovery_cb
         thread_name := e.name
         elapsed_ms := ((now - e.last_heartbeat) % (2 ^ 32 : Int)).toNat }] := by
    refine filterMap_eq_single_of_index _ _ i e _ htake hfe ?_
    intro j a2 hj hja2
    by_cases hjc : j < r.count
    · have hj2 : r.table[j]? = some a2 := by
        rw [← List.getElem?_take_of_lt hjc]
        exact hja2
      exact hothers j a2 hjc hj hj2
    · rw [List.getElem?_take_eq_none (by omega)] at hja2
      exact absurd hja2 (by simp)
  have hevs := wdg_tick_events now r hen
  have hev1 : (wdg_checker_tick now r).2 =
      [{ cb := e.recovery_cb
         thread_name := e.name
         elapsed_ms := ((now - e.last_heartbeat) % (2 ^ 32 : Int)).toNat }] := by
    rw [hevs, hsingle]
  refine ⟨hev1, ?_, ?_, ?_, wdg_tick_total_heartbeats now r, ?_⟩
  · rw [wdg_tick_table_getElem now r i hen hi hil, he]
    show some (wdg_check_entry now e).1 = _
    rw [wdg_check_entry_eq_timeout now e ha hs ht]
  · rw [(wdg_tick_totals now r).1, hev1]
    rfl
  · rw [(wdg_tick_totals now r).2, hev1]
    rfl
  · intro now2
    exact wdg_check_entry_recovered_noop now2 _ rfl

/-- C1 witness: thread A registered at clock 0 with timeout 100 and
callback 7; the tick at clock 150 fires callback 7 once with elapsed
150, the entry ends RECOVERED with both counters at 1, the global totals
are 1, and a later evaluation at clock 2000 changes nothing. -/
theorem C1_exactly_one_recovery_per_episode_witness :
    (wdg_checker_tick 150 wdgRegA7).2 =
      [{ cb := some 7, thread_name := wdgNameA, elapsed_ms := 150 }] ∧
    ((wdg_checker_tick 150 wdgRegA7).1).table[0]? =
      some { wdgEntryA7 with
             state := WdgThreadState.recovered
             timeout_count := 1
             recovery_count := 1 } ∧
    ((wdg_checker_tick 150 wdgRegA7).1).stats.total_timeouts = 1 ∧
    ((wdg_checker_tick 150 wdgRegA7).1).stats.total_recoveries = 1 ∧
    wdg_check_entry 2000
      { wdgEntryA7 with
        state := WdgThreadState.recovered
        timeout_count := 1
        recovery_count := 1 } =
      ({ wdgEntryA7 with
         state := WdgThreadState.recovered
         timeout_count := 1
         recovery_count := 1 }, none) := by
  have h := C1_exactly_one_recovery_per_episode wdgRegA7 0 150 wdgEntryA7
    (by decide) (by decide) (by decide) (by decide)
    ⟨by decide, by decide⟩ (by decide)
    (by
      intro j e2 hj hne hj2
      have hc : wdgRegA7.count = 1 := by decide
      rw [hc] at hj
      exact absurd (by omega) hne)
  exact ⟨h.1, h.2.1, h.2.2.1, h.2.2.2.1, h.2.2.2.2.2 2000⟩

/-- C9: a slot index returned by a successful registration is strictly
smaller than the index returned by any later successful registration —
slots are never reused, whatever operations (including unregister)
happen in between — and unregistering an active in-range slot changes
only that entry's `active` flag, retaining its name, state and counters
and touching nothing else in the registry. -/
theorem C9_slots_never_reused (name : String) (timeout_ms : Nat)
    (cb : Option Nat) (now : Int) (r r1 : WdgRegistry) (s : Nat)
    (ops : List WdgOp) (name2 : String) (timeout_ms2 : Nat)
    (cb2 : Option Nat) (now2 : Int) (s2 : Nat) (r2 : WdgRegistry)
    (h1 : wdg_register name timeout_ms cb now r = (some s, r1))
    (h2 : wdg_register name2 timeout_ms2 cb2 now2 (wdgRun ops r1) =
      (some s2, r2)) :
    s < s2 ∧
    (∀ (slot : Int) (rr : WdgRegistry) (e : WdgEntry),
      ¬ (slot < 0 ∨ (WDG_MAX_THREADS : Int) ≤ slot) →
      rr.table[slot.toNat]? = some e → e.active = true →
      wdg_unregister slot rr =
        { rr with
          table := rr.table.set slot.toNat { e with active := false } }) := by
  constructor
  · by_cases hfull : WDG_MAX_THREADS ≤ r.count
    · rw [wdg_register_eq_full name timeout_ms cb now r hfull] at h1
      rw [Prod.mk.injEq] at h1
      exact absurd h1.1 (by simp)
    · rw [wdg_register_eq_ok name timeout_ms cb now r (by omega)] at h1
      rw [Prod.mk.injEq] at h1
      obtain ⟨hs1, hr1⟩ := h1
      have hs : s = r.count := by
        injection hs1 with h
        exact h.symm
      have hr1c : r1.count = r.count + 1 := by
        rw [← hr1]
      have hmono : r1.count ≤ (wdgRun ops r1).count := wdgRun_count_mono ops r1
      by_cases hfull2 : WDG_MAX_THREADS ≤ (wdgRun ops r1).count
      · rw [wdg_register_eq_full name2 timeout_ms2 cb2 now2 _ hfull2] at h2
        rw [Prod.mk.injEq] at h2
        exact absurd h2.1 (by simp)
      · rw [wdg_register_eq_ok name2 timeout_ms2 cb2 now2 _ (by omega)] at h2
        rw [Prod.mk.injEq] at h2
        have hs2 : s2 = (wdgRun ops r1).count := by
          injection h2.1 with h
          exact h.symm
        omega
  · intro slot rr e h hget ha
    exact wdg_unregister_eq_active slot rr e h hget ha

set_option maxRecDepth 8192

/-- C9 witness: registering A into slot 0, unregistering it, then
registering B still yields the fresh slot 1; and unregistering slot 0
only clears the `active` flag of entry A. -/
theorem C9_slots_never_reused_witness :
    (0 : Nat) < 1 ∧
    wdg_unregister 0 wdgRegA =
      { wdgRegA with
        table := wdgRegA.table.set 0 { wdgEntryA with active := false } } := by
  have h := C9_slots_never_reused wdgNameA 100 none 0 wdgInitRegistry wdgRegA 0
    [WdgOp.unregister 0] wdgNameB 200 none 7 1
    (wdg_register wdgNameB 200 none 7 (wdgRun [WdgOp.unregister 0] wdgRegA)).2
    (by decide) (by decide)
  exact ⟨h.1, h.2 0 wdgRegA wdgEntryA (by decide) (by decide) (by decide)⟩

/-- Summing a counter over a table with one slot replaced. -/
theorem wdg_map_sum_set (f : WdgEntry → Nat) (l : List WdgEntry) (i : Nat)
    (a e : WdgEntry) (h : l[i]? = some e) :
    ((l.set i a).map f).sum + f e = (l.map f).sum + f a := by
  induction l generalizing i with
  | nil => simp at h
  | cons x xs ih =>
    cases i with
    | zero =>
      have hx : x = e := by
        have h0 : some x = some e := by simpa using h
        injection h0
      subst hx
      simp only [List.set_cons_zero, List.map_cons, List.sum_cons]
      omega
    | succ k =>
      have hk := ih k (by simpa using h)
      simp only [List.set_cons_succ, List.map_cons, List.sum_cons]
      omega

/-- Per-entry counter bookkeeping of one checker evaluation: the
heartbeat counter never moves; the timeout and recovery counters grow
exactly by one when (and only when) a recovery invocation is produced. -/
theorem wdg_check_entry_counts (now : Int) (e : WdgEntry) :
    ((wdg_check_entry now e).1).heartbeat_count = e.heartbeat_count ∧
    ((wdg_check_entry now e).1).timeout_count =
      e.timeout_count + ((wdg_check_entry now e).2).toList.length ∧
    ((wdg_check_entry now e).1).recovery_count =
      e.recovery_count + ((wdg_check_entry now e).2).toList.length := by
  unfold wdg_check_entry
  split
  · exact ⟨rfl, rfl, rfl⟩
  · split
    · split
      · exact ⟨rfl, rfl, rfl⟩
      · exact ⟨rfl, rfl, rfl⟩
    · split
      · split
        · exact ⟨rfl, rfl, rfl⟩
        · exact ⟨rfl, rfl, rfl⟩
      · exact ⟨rfl, rfl, rfl⟩

/-- Summing a counter over the checked prefix: the sum grows by the
number of recovery invocations (for a counter with the bookkeeping
property), one list cell at a time. -/
theorem wdg_sum_map_checked (now : Int) (l : List WdgEntry)
    (f : WdgEntry → Nat)
    (hf : ∀ e2, f ((wdg_check_entry now e2).1) =
      f e2 + ((wdg_check_entry now e2).2).toList.length) :
    ((l.map (fun e2 => (wdg_check_entry now e2).1)).map f).sum =
      (l.map f).sum +
      (l.filterMap (fun e2 => (wdg_check_entry now e2).2)).length := by
  induction l with
  | nil => rfl
  | cons x xs ih =>
    rcases hx : (wdg_check_entry now x).2 with _ | ev
    · rw [List.map_cons, List.map_cons, List.map_cons,
        List.filterMap_cons_none (by simpa using hx),
        List.sum_cons, List.sum_cons, ih]
      have hfx := hf x
      rw [hx] at hfx
      have hfx2 : f ((wdg_check_entry now x).1) = f x := hfx.trans rfl
      rw [hfx2]
      omega
    · rw [List.map_cons, List.map_cons, List.map_cons,
        List.filterMap_cons_some (by simpa using hx),
        List.sum_cons, List.sum_cons, ih]
      have hfx := hf x
      rw [hx] at hfx
      have hfx2 : f ((wdg_check_entry now x).1) = f x + 1 := hfx.trans rfl
      rw [hfx2, List.length_cons]
      omega

/-- Splitting a counter sum at the high-water mark. -/
theorem wdg_sum_map_take_drop (f : WdgEntry → Nat) (l : List WdgEntry)
    (n : Nat) :
    (l.map f).sum = ((l.take n).map f).sum + ((l.drop n).map f).sum := by
  conv_lhs => rw [← List.take_append_drop n l]
  rw [List.map_append, List.sum_append]

/-- A counter left unchanged by every per-entry check has its prefix
sum unchanged by the checked map. -/
theorem wdg_sum_map_checked_eq (now : Int) (l : List WdgEntry)
    (f : WdgEntry → Nat)
    (hf : ∀ e2, f ((wdg_check_entry now e2).1) = f e2) :
    ((l.map (fun e2 => (wdg_check_entry now e2).1)).map f).sum =
      (l.map f).sum := by
  induction l with
  | nil => rfl
  | cons x xs ih =>
    rw [List.map_cons, List.map_cons, List.map_cons, List.sum_cons,
      List.sum_cons, ih, hf x]

/-- Effect of one tick on a whole-table counter sum, for a counter that
grows by one per recovery invocation. -/
theorem wdg_tick_sum (now : Int) (r : WdgRegistry) (f : WdgEntry → Nat)
    (hf : ∀ e2, f ((wdg_check_entry now e2).1) =
      f e2 + ((wdg_check_entry now e2).2).toList.length) :
    (((wdg_checker_tick now r).1).table.map f).sum =
      (r.table.map f).sum + ((wdg_checker_tick now r).2).length := by
  unfold wdg_checker_tick
  split
  · simp
  · show ((((r.table.take r.count).map (fun e => (wdg_check_entry now e).1)
        ++ r.table.drop r.count).map f).sum =
      (r.table.map f).sum +
        ((r.table.take r.count).filterMap
          (fun e => (wdg_check_entry now e).2)).length)
    rw [List.map_append, List.sum_append, wdg_sum_map_checked now _ f hf,
      wdg_sum_map_take_drop f r.table r.count]
    omega

/-- Effect of one tick on a whole-table counter sum, for a counter the
per-entry check never changes. -/
theorem wdg_tick_sum_eq (now : Int) (r : WdgRegistry) (f : WdgEntry → Nat)
    (hf : ∀ e2, f ((wdg_check_entry now e2).1) = f e2) :
    (((wdg_checker_tick now r).1).table.map f).sum =
      (r.table.map f).sum := by
  unfold wdg_checker_tick
  split
  · rfl
  · show ((((r.table.take r.count).map (fun e => (wdg_check_entry now e).1)
        ++ r.table.drop r.count).map f).sum = (r.table.map f).sum)
    rw [List.map_append, List.sum_append, wdg_sum_map_checked_eq now _ f hf,
      wdg_sum_map_take_drop f r.table r.count]

/-- Every operation preserves the statistics invariant (the shape
invariant is needed to know that a fresh registration overwrites a
zeroed slot). -/
theorem wdgSumInv_step (op : WdgOp) (r : WdgRegistry) (hT : WdgTableInv r)
    (h : WdgSumInv r) : WdgSumInv (wdgStep op r) := by
  obtain ⟨hlen, hcnt, hhigh⟩ := hT
  obtain ⟨hhb, hto, hrec⟩ := h
  cases op with
  | register name timeout_ms cb now =>
      show WdgSumInv (wdg_register name timeout_ms cb now r).2
      by_cases hfull : WDG_MAX_THREADS ≤ r.count
      · rw [wdg_register_eq_full name timeout_ms cb now r hfull]
        exact ⟨hhb, hto, hrec⟩
      · rw [wdg_register_eq_ok name timeout_ms cb now r (by omega)]
        have hslot : r.table[r.count]? = some wdgInitEntry :=
          hhigh r.count (Nat.le_refl _) (by omega)
        refine ⟨?_, ?_, ?_⟩
        · have := wdg_map_sum_set WdgEntry.heartbeat_count r.table r.count
            (wdgFreshEntry name timeout_ms cb now) wdgInitEntry hslot
          show r.stats.total_heartbeats =
            ((r.table.set r.count (wdgFreshEntry name timeout_ms cb now)).map
              WdgEntry.heartbeat_count).sum
          have hz1 : WdgEntry.heartbeat_count wdgInitEntry = 0 := rfl
          have hz2 : WdgEntry.heartbeat_count
            (wdgFreshEntry name timeout_ms cb now) = 0 := rfl
          omega
        · have := wdg_map_sum_set WdgEntry.timeout_count r.table r.count
            (wdgFreshEntry name timeout_ms cb now) wdgInitEntry hslot
          show r.stats.total_timeouts =
            ((r.table.set r.count (wdgFreshEntry name timeout_ms cb now)).map
              WdgEntry.timeout_count).sum
          have hz1 : WdgEntry.timeout_count wdgInitEntry = 0 := rfl
          have hz2 : WdgEntry.timeout_count
            (wdgFreshEntry name timeout_ms cb now) = 0 := rfl
          omega
        · have := wdg_map_sum_set WdgEntry.recovery_count r.table r.count
            (wdgFreshEntry name timeout_ms cb now) wdgInitEntry hslot
          show r.stats.total_recoveries =
            ((r.table.set r.count (wdgFreshEntry name timeout_ms cb now)).map
              WdgEntry.recovery_count).sum
          have hz1 : WdgEntry.recovery_count wdgInitEntry = 0 := rfl
          have hz2 : WdgEntry.recovery_count
            (wdgFreshEntry name timeout_ms cb now) = 0 := rfl
          omega
  | heartbeat slot now =>
      show WdgSumInv (wdg_heartbeat slot now r)
      by_cases hr : slot < 0 ∨ (WDG_MAX_THREADS : Int) ≤ slot
      · rw [wdg_heartbeat_eq_out slot now r hr]
        exact ⟨hhb, hto, hrec⟩
      · rcases hget : r.table[slot.toNat]? with _ | e
        · rw [wdg_heartbeat_eq_none slot now r hr hget]
          exact ⟨hhb, hto, hrec⟩
        · rcases ha : e.active with _ | _
          · rw [wdg_heartbeat_eq_inactive slot now r e hr hget ha]
            exact ⟨hhb, hto, hrec⟩
          · rw [wdg_heartbeat_eq_active slot now r e hr hget ha]
            refine ⟨?_, ?_, ?_⟩
            · have := wdg_map_sum_set WdgEntry.heartbeat_count r.table
                slot.toNat
                { e with
                  last_heartbeat := now
                  state := WdgThreadState.healthy
                  heartbeat_count := e.heartbeat_count + 1 } e hget
              show r.stats.total_heartbeats + 1 =
                ((r.table.set slot.toNat _).map WdgEntry.heartbeat_count).sum
              have hfa : WdgEntry.heartbeat_count
                { e with
                  last_heartbeat := now
                  state := WdgThreadState.healthy
                  heartbeat_count := e.heartbeat_count + 1 } =
                e.heartbeat_count + 1 := rfl
              omega
            · have := wdg_map_sum_set WdgEntry.timeout_count r.table
                slot.toNat
                { e with
                  last_heartbeat := now
                  state := WdgThreadState.healthy
                  heartbeat_count := e.heartbeat_count + 1 } e hget
              show r.stats.total_timeouts =
                ((r.table.set slot.toNat _).map WdgEntry.timeout_count).sum
              have hfa : WdgEntry.timeout_count
                { e with
                  last_heartbeat := now
                  state := WdgThreadState.healthy
                  heartbeat_count := e.heartbeat_count + 1 } =
                e.timeout_count := rfl
              omega
            · have := wdg_map_sum_set WdgEntry.recovery_count r.table
                slot.toNat
                { e with
                  last_heartbeat := now
                  state := WdgThreadState.healthy
                  heartbeat_count := e.heartbeat_count + 1 } e hget
              show r.stats.total_recoveries =
                ((r.table.set slot.toNat _).map WdgEntry.recovery_count).sum
              have hfa : WdgEntry.recovery_count
                { e with
                  last_heartbeat := now
                  state := WdgThreadState.healthy
                  heartbeat_count := e.heartbeat_count + 1 } =
                e.recovery_count := rfl
              omega
  | unregister slot =>
      show WdgSumInv (wdg_unregister slot r)
      by_cases hr : slot < 0 ∨ (WDG_MAX_THREADS : Int) ≤ slot
      · rw [wdg_unregister_eq_out slot r hr]
        exact ⟨hhb, hto, hrec⟩
      · rcases hget : r.table[slot.toNat]? with _ | e
        · rw [wdg_unregister_eq_none slot r hr hget]
          exact ⟨hhb, hto, hrec⟩
        · rcases ha : e.active with _ | _
          · rw [wdg_unregister_eq_inactive slot r e hr hget ha]
            exact ⟨hhb, hto, hrec⟩
          · rw [wdg_unregister_eq_active slot r e hr hget ha]
            refine ⟨?_, ?_, ?_⟩
            · have := wdg_map_sum_set WdgEntry.heartbeat_count r.table
                slot.toNat { e with active := false } e hget
              show r.stats.total_heartbeats =
                ((r.table.set slot.toNat _).map WdgEntry.heartbeat_count).sum
              have hfa : WdgEntry.heartbeat_count { e with active := false } =
                e.heartbeat_count := rfl
              omega
            · have := wdg_map_sum_set WdgEntry.timeout_count r.table
                slot.toNat { e with active := false } e hget
              show r.stats.total_timeouts =
                ((r.table.set slot.toNat _).map WdgEntry.timeout_count).sum
              have hfa : WdgEntry.timeout_count { e with active := false } =
                e.timeout_count := rfl
              omega
            · have := wdg_map_sum_set WdgEntry.recovery_count r.table
                slot.toNat { e with active := false } e hget
              show r.stats.total_recoveries =
                ((r.table.set slot.toNat _).map WdgEntry.recovery_count).sum
              have hfa : WdgEntry.recovery_count { e with active := false } =
                e.recovery_count := rfl
              omega
  | setEnabled enable => exact ⟨hhb, hto, hrec⟩
  | tick now =>
      show WdgSumInv ((wdg_checker_tick now r).1)
      refine ⟨?_, ?_, ?_⟩
      · rw [wdg_tick_sum_eq now r WdgEntry.heartbeat_count
          (fun e2 => (wdg_check_entry_counts now e2).1),
          wdg_tick_total_heartbeats]
        exact hhb
      · rw [wdg_tick_sum now r WdgEntry.timeout_count
          (fun e2 => (wdg_check_entry_counts now e2).2.1),
          (wdg_tick_totals now r).1]
        omega
      · rw [wdg_tick_sum now r WdgEntry.recovery_count
          (fun e2 => (wdg_check_entry_counts now e2).2.2),
          (wdg_tick_totals now r).2]
        omega
  | query slot => exact ⟨hhb, hto, hrec⟩
  | report => exact ⟨hhb, hto, hrec⟩

/-- C10: in every state reachable by any sequence of operations from
process start, each global aggregate equals the sum of the corresponding
per-entry counter over all table slots, active and inactive alike. -/
theorem C10_totals_are_sums (ops : List WdgOp) :
    (wdgRun ops wdgInitRegistry).stats.total_heartbeats =
      ((wdgRun ops wdgInitRegistry).table.map WdgEntry.heartbeat_count).sum ∧
    (wdgRun ops wdgInitRegistry).stats.total_timeouts =
      ((wdgRun ops wdgInitRegistry).table.map WdgEntry.timeout_count).sum ∧
    (wdgRun ops wdgInitRegistry).stats.total_recoveries =
      ((wdgRun ops wdgInitRegistry).table.map WdgEntry.recovery_count).sum := by
  have main : ∀ (l : List WdgOp) (r : WdgRegistry), WdgTableInv r →
      WdgSumInv r → WdgSumInv (wdgRun l r) := by
    intro l
    induction l with
    | nil => exact fun r _ h => h
    | cons op ops2 ih =>
        intro r hT hS
        exact ih (wdgStep op r) (wdgTableInv_step op r hT)
          (wdgSumInv_step op r hT hS)
  exact main ops wdgInitRegistry wdgTableInv_init ⟨by decide, by decide, by decide⟩

end Wdg
